import Mathlib

/-!
# Verification of the LC-3 virtual machine (`2048-assembly-vm`)

A shallow embedding of the instruction interpreter of `src/lc3.c` (the
complete implementation in the repository) together with the divergent
JMP handler of `src/main.c`.  All 16-bit machine words are modelled as
`Nat` with explicit `% 65536` truncation exactly where the C code
truncates (stores into `uint16_t` objects and `uint16_t` function
parameters).  Terminal input is modelled as a list of pending bytes and
terminal output as a list of output events; `check_key` (a zero-timeout
`select` on stdin) is modelled as "the pending-input list is nonempty",
and `getchar` pops the head of that list (returning the `EOF` value
`0xFFFF`, i.e. `(uint16_t)(-1)`, on an empty list).
-/

set_option maxRecDepth 4000

namespace LC3

/-- `MEMORY_MAX` from `lc3.c`: number of memory locations. -/
abbrev MEMORY_MAX : Nat := 65536

/-- Keyboard status register address (`MR_KBSR`). -/
abbrev MR_KBSR : Nat := 0xFE00

/-- Keyboard data register address (`MR_KBDR`). -/
abbrev MR_KBDR : Nat := 0xFE02

/-- Condition flag P (positive), `FL_POS = 1 << 0`. -/
abbrev FL_POS : Nat := 1

/-- Condition flag Z (zero), `FL_ZRO = 1 << 1`. -/
abbrev FL_ZRO : Nat := 2

/-- Condition flag N (negative), `FL_NEG = 1 << 2`. -/
abbrev FL_NEG : Nat := 4

/-- Register index of R7 (link register). -/
abbrev R_R7 : Nat := 7

/-- Register index of the program counter. -/
abbrev R_PC : Nat := 8

/-- Register index of the condition register. -/
abbrev R_COND : Nat := 9

/-- One event written to the terminal: a single byte (from `putc`) or a
fixed text (from `printf`/`puts`). -/
inductive OutEvent where
  | ch (c : Nat)
  | text (msg : String)
deriving DecidableEq, Repr

/-- The machine state of the VM: the register file `reg` (indices 0-7 the
general registers, 8 the PC, 9 COND, as in the C `enum`), the 65536-word
`memory` array, the pending terminal input, the terminal output produced
so far, the `running` flag of the main loop, and whether `abort()` was
reached (reserved/RTI opcodes). -/
structure Machine where
  reg : Nat → Nat
  mem : Nat → Nat
  input : List Nat
  output : List OutEvent
  running : Bool
  aborted : Bool

/-- Store `v` into register `r`; the store into the `uint16_t` array cell
truncates the value modulo `2^16`. -/
def setReg (s : Machine) (r v : Nat) : Machine :=
  { s with reg := fun i => if i = r then v % 65536 else s.reg i }

/-- `check_key` from `lc3.c`: a zero-timeout `select` on stdin, true iff
terminal input is pending. -/
def check_key (s : Machine) : Bool :=
  !s.input.isEmpty

/-- `getchar()`: pop the next pending input byte; on an empty stream the
C `getchar` returns `EOF = -1`, which every 16-bit use site in `lc3.c`
converts to `0xFFFF`. -/
def getchar (s : Machine) : Machine × Nat :=
  match s.input with
  | [] => (s, 0xFFFF)
  | c :: rest => ({ s with input := rest }, c % 256)

/-- `mem_write` from `lc3.c`: `memory[address] = val;` with both
`uint16_t` parameters truncated modulo `2^16`. -/
def mem_write (s : Machine) (address val : Nat) : Machine :=
  { s with mem := fun a => if a = address % 65536 then val % 65536 else s.mem a }

/-- `mem_read` from `lc3.c`: reading `MR_KBSR` polls the keyboard first
(`check_key`), setting the ready bit and latching the character into
`MR_KBDR` when input is pending and clearing the status register
otherwise; then the stored word at `address` is returned. -/
def mem_read (s : Machine) (address : Nat) : Machine × Nat :=
  let address := address % 65536
  if address = MR_KBSR then
    if check_key s then
      let p := getchar s
      let s1 := mem_write (mem_write p.1 MR_KBSR 0x8000) MR_KBDR p.2
      (s1, s1.mem address)
    else
      let s1 := mem_write s MR_KBSR 0
      (s1, s1.mem address)
  else
    (s, s.mem address)

/-- `sign_extend` from `lc3.c`: if bit `bit_count - 1` of `x` is set, OR
in `0xFFFF << bit_count` (the result of `x |= ...` truncates to the
`uint16_t` object `x`). -/
def sign_extend (x : Nat) (bit_count : Nat) : Nat :=
  if (x >>> (bit_count - 1)) &&& 1 ≠ 0 then
    (x ||| (0xFFFF <<< bit_count)) % 65536
  else
    x

/-- `update_flags` from `lc3.c`: set COND to Z, N (left-most bit set) or
P from the value of register `r`. -/
def update_flags (s : Machine) (r : Nat) : Machine :=
  if s.reg r = 0 then
    setReg s R_COND FL_ZRO
  else if s.reg r >>> 15 ≠ 0 then
    setReg s R_COND FL_NEG
  else
    setReg s R_COND FL_POS

/-- `swap16` from `lc3.c`: `(x << 8) | (x >> 8)` on a `uint16_t`. -/
def swap16 (x : Nat) : Nat :=
  ((x <<< 8) ||| (x >>> 8)) % 65536

/-- The `TRAP_PUTS` output loop of `lc3.c`: walk `memory` from `a` until
a zero word (or the end of the array, where the C pointer walk would
leave the array), `putc`-ing the low byte of each word. -/
def puts_out (mem : Nat → Nat) : Nat → Nat → List OutEvent
  | 0, _ => []
  | fuel + 1, a =>
    if mem a = 0 then []
    else OutEvent.ch (mem a % 256) :: puts_out mem fuel (a + 1)

/-- The `TRAP_PUTSP` output loop of `lc3.c`: for each non-zero word emit
its low byte `char1 = *c & 0xFF`, then its high byte `char2 = *c >> 8`
when that is non-zero. -/
def putsp_out (mem : Nat → Nat) : Nat → Nat → List OutEvent
  | 0, _ => []
  | fuel + 1, a =>
    if mem a = 0 then []
    else
      (OutEvent.ch ((mem a &&& 0xFF) % 256) ::
        (if mem a >>> 8 ≠ 0 then [OutEvent.ch ((mem a >>> 8) % 256)] else [])) ++
        putsp_out mem fuel (a + 1)

/-- One iteration of the `switch (op)` statement of `lc3.c`'s `main`, run
on the state after the fetch and PC post-increment.  `instr` is the
fetched instruction word. -/
def exec_instr (s : Machine) (instr : Nat) : Machine :=
  let op := instr >>> 12
  if op = 1 then -- OP_ADD
    let r0 := (instr >>> 9) &&& 0x7
    let r1 := (instr >>> 6) &&& 0x7
    let imm_flag := (instr >>> 5) &&& 0x1
    if imm_flag ≠ 0 then
      let imm5 := sign_extend (instr &&& 0x1F) 5
      update_flags (setReg s r0 (s.reg r1 + imm5)) r0
    else
      let r2 := instr &&& 0x7
      update_flags (setReg s r0 (s.reg r1 + s.reg r2)) r0
  else if op = 5 then -- OP_AND
    let r0 := (instr >>> 9) &&& 0x7
    let r1 := (instr >>> 6) &&& 0x7
    let imm_flag := (instr >>> 5) &&& 0x1
    if imm_flag ≠ 0 then
      let imm5 := sign_extend (instr &&& 0x1F) 5
      update_flags (setReg s r0 (s.reg r1 &&& imm5)) r0
    else
      let r2 := instr &&& 0x7
      update_flags (setReg s r0 (s.reg r1 &&& s.reg r2)) r0
  else if op = 9 then -- OP_NOT
    let r0 := (instr >>> 9) &&& 0x7
    let r1 := (instr >>> 6) &&& 0x7
    update_flags (setReg s r0 (s.reg r1 ^^^ 0xFFFF)) r0
  else if op = 0 then -- OP_BR
    let pc_offset := sign_extend (instr &&& 0x1FF) 9
    let cond_flag := (instr >>> 9) &&& 0x7
    if cond_flag &&& s.reg R_COND ≠ 0 then
      setReg s R_PC (s.reg R_PC + pc_offset)
    else s
  else if op = 12 then -- OP_JMP (also handles RET)
    let base_reg := (instr >>> 6) &&& 0x7
    setReg s R_PC (s.reg base_reg)
  else if op = 4 then -- OP_JSR
    let long_flag := (instr >>> 11) &&& 1
    let s := setReg s R_R7 (s.reg R_PC)
    if long_flag ≠ 0 then
      let pc_offset_11 := sign_extend (instr &&& 0x7FF) 11
      setReg s R_PC (s.reg R_PC + pc_offset_11)
    else
      let base_reg := (instr >>> 6) &&& 0x7
      setReg s R_PC (s.reg base_reg)
  else if op = 2 then -- OP_LD
    let dr := (instr >>> 9) &&& 0x7
    let pc_offset_9 := sign_extend (instr &&& 0x1FF) 9
    let p := mem_read s (s.reg R_PC + pc_offset_9)
    update_flags (setReg p.1 dr p.2) dr
  else if op = 10 then -- OP_LDI
    let r0 := (instr >>> 9) &&& 0x7
    let pc_offset := sign_extend (instr &&& 0x1FF) 9
    let p := mem_read s (s.reg R_PC + pc_offset)
    let q := mem_read p.1 p.2
    update_flags (setReg q.1 r0 q.2) r0
  else if op = 6 then -- OP_LDR
    let dr := (instr >>> 9) &&& 0x7
    let br := (instr >>> 6) &&& 0x7
    let pc_offset_6 := sign_extend (instr &&& 0x3F) 6
    let p := mem_read s (s.reg br + pc_offset_6)
    update_flags (setReg p.1 dr p.2) dr
  else if op = 14 then -- OP_LEA
    let dr := (instr >>> 9) &&& 0x7
    let pc_offset_9 := sign_extend (instr &&& 0x1FF) 9
    update_flags (setReg s dr (s.reg R_PC + pc_offset_9)) dr
  else if op = 3 then -- OP_ST
    let br := (instr >>> 9) &&& 0x7
    let pc_offset_9 := sign_extend (instr &&& 0x1FF) 9
    mem_write s (s.reg R_PC + pc_offset_9) (s.reg br)
  else if op = 11 then -- OP_STI
    let br := (instr >>> 9) &&& 0x7
    let pc_offset_9 := sign_extend (instr &&& 0x1FF) 9
    let p := mem_read s (s.reg R_PC + pc_offset_9)
    mem_write p.1 p.2 (s.reg br)
  else if op = 7 then -- OP_STR
    let br := (instr >>> 9) &&& 0x7
    let sr := (instr >>> 6) &&& 0x7
    let offset6 := sign_extend (instr &&& 0x3F) 6
    mem_write s (s.reg sr + offset6) (s.reg br)
  else if op = 15 then -- OP_TRAP
    let s := setReg s R_R7 (s.reg R_PC)
    let vect := instr &&& 0xFF
    if vect = 0x20 then -- TRAP_GETC
      let p := getchar s
      update_flags (setReg p.1 0 p.2) 0
    else if vect = 0x21 then -- TRAP_OUT
      { s with output := s.output ++ [OutEvent.ch (s.reg 0 % 256)] }
    else if vect = 0x22 then -- TRAP_PUTS
      { s with output := s.output ++ puts_out s.mem (MEMORY_MAX - s.reg 0) (s.reg 0) }
    else if vect = 0x23 then -- TRAP_IN
      let p := getchar s
      let b := p.2 % 256
      let v := if 128 ≤ b then 0xFF00 ||| b else b -- (uint16_t)(char)getchar()
      let s1 := { p.1 with output := p.1.output ++
        [OutEvent.text "*** Enter a character: ",
         OutEvent.text "\nRead character: ", OutEvent.ch b, OutEvent.text "\n",
         OutEvent.ch b] }
      update_flags (setReg s1 0 v) 0
    else if vect = 0x24 then -- TRAP_PUTSP
      { s with output := s.output ++ putsp_out s.mem (MEMORY_MAX - s.reg 0) (s.reg 0) }
    else if vect = 0x25 then -- TRAP_HALT
      { s with output := s.output ++ [OutEvent.text "Thanks for playing!\n"],
               running := false }
    else
      s -- unknown trap vector: the switch has no default case
  else -- OP_RES, OP_RTI, default: abort()
    { s with aborted := true }

/-- The instruction word fetched by `mem_read(reg[R_PC]++)` (the value of
the `mem_read` call at the current PC). -/
def fetched_instr (s : Machine) : Nat :=
  (mem_read s (s.reg R_PC)).2

/-- The machine state right after the fetch: the side effect of the
`mem_read` at the current PC, with the PC post-incremented (wrapping
modulo `2^16`). -/
def fetch_state (s : Machine) : Machine :=
  setReg (mem_read s (s.reg R_PC)).1 R_PC (s.reg R_PC + 1)

/-- One iteration of the fetch-decode-execute loop of `lc3.c`:
`uint16_t instr = mem_read(reg[R_PC]++);` followed by the dispatch
`switch (instr >> 12)`. -/
def step (s : Machine) : Machine :=
  exec_instr (fetch_state s) (fetched_instr s)

/-- `n` iterations of the `while (running)` loop: an iteration runs only
while `running` is set and `abort()` has not been reached. -/
def stepN : Nat → Machine → Machine
  | 0, s => s
  | n + 1, s => if s.running && !s.aborted then stepN n (step s) else s

/-- The machine state at entry of the main loop of `lc3.c`: C globals are
zero-initialised, `reg[R_COND] = FL_ZRO`, `reg[R_PC] = PC_START = 0x3000`,
with `mem` holding the loaded image and `input` the pending terminal
bytes. -/
def init_machine (mem : Nat → Nat) (input : List Nat) : Machine :=
  { reg := fun i => if i = R_PC then 0x3000 else if i = R_COND then FL_ZRO else 0,
    mem := mem, input := input, output := [], running := true, aborted := false }

/-- `read_image_file` from `lc3.c`, with the file contents presented as
the already-byte-swapped `origin` word followed by the raw data words as
`fread` deposits them: `uint16_t max_read = MEMORY_MAX - origin` (note
the `uint16_t` truncation), one `fread` of at most `max_read` words at
`memory + origin`, then `swap16` applied to each word actually read. -/
def read_image_file (mem : Nat → Nat) (origin : Nat) (data : List Nat) : Nat → Nat :=
  let max_read := (MEMORY_MAX - origin) % 65536
  let n := min data.length max_read
  fun a => if origin ≤ a ∧ a < origin + n then swap16 (data.getD (a - origin) 0) else mem a

/-- The `OP_JMP` handler exactly as written in `src/main.c` (lines
225-231): `reg[R_PC] = base_reg;` - the PC receives the 3-bit field
itself. -/
def exec_jmp_main (s : Machine) (instr : Nat) : Machine :=
  let base_reg := (instr >>> 6) &&& 0x7
  setReg s R_PC base_reg

/-- Reference implementation of the PUTS trap following the words of the
spec ("PUTS and PUTSP both read memory via the ordinary read path"):
fetch every string word through `mem_read`, emitting the low byte of
each non-zero word until a zero word is read. -/
def puts_via_mem_read (s : Machine) : Nat → Nat → Machine
  | 0, _ => s
  | fuel + 1, a =>
    let p := mem_read s a
    if p.2 = 0 then p.1
    else puts_via_mem_read
      { p.1 with output := p.1.output ++ [OutEvent.ch (p.2 % 256)] } fuel (a + 1)

/-! ## Projection lemmas for the state-mutating operations -/

@[simp] theorem setReg_reg (s : Machine) (r v i : Nat) :
    (setReg s r v).reg i = if i = r then v % 65536 else s.reg i := rfl

@[simp] theorem setReg_mem (s : Machine) (r v : Nat) : (setReg s r v).mem = s.mem := rfl

@[simp] theorem setReg_input (s : Machine) (r v : Nat) : (setReg s r v).input = s.input := rfl

@[simp] theorem setReg_output (s : Machine) (r v : Nat) : (setReg s r v).output = s.output := rfl

@[simp] theorem setReg_running (s : Machine) (r v : Nat) : (setReg s r v).running = s.running := rfl

@[simp] theorem setReg_aborted (s : Machine) (r v : Nat) : (setReg s r v).aborted = s.aborted := rfl

@[simp] theorem mem_write_reg (s : Machine) (a v : Nat) : (mem_write s a v).reg = s.reg := rfl

@[simp] theorem mem_write_mem (s : Machine) (a v i : Nat) :
    (mem_write s a v).mem i = if i = a % 65536 then v % 65536 else s.mem i := rfl

@[simp] theorem mem_write_input (s : Machine) (a v : Nat) : (mem_write s a v).input = s.input := rfl

@[simp] theorem mem_write_output (s : Machine) (a v : Nat) : (mem_write s a v).output = s.output := rfl

@[simp] theorem mem_write_running (s : Machine) (a v : Nat) : (mem_write s a v).running = s.running := rfl

@[simp] theorem mem_write_aborted (s : Machine) (a v : Nat) : (mem_write s a v).aborted = s.aborted := rfl

@[simp] theorem getchar_fst_reg (s : Machine) : (getchar s).1.reg = s.reg := by
  cases h : s.input <;> simp [getchar, h]

@[simp] theorem getchar_fst_mem (s : Machine) : (getchar s).1.mem = s.mem := by
  cases h : s.input <;> simp [getchar, h]

@[simp] theorem getchar_fst_input (s : Machine) : (getchar s).1.input = s.input.tail := by
  cases h : s.input <;> simp [getchar, h]

@[simp] theorem getchar_fst_output (s : Machine) : (getchar s).1.output = s.output := by
  cases h : s.input <;> simp [getchar, h]

@[simp] theorem getchar_fst_running (s : Machine) : (getchar s).1.running = s.running := by
  cases h : s.input <;> simp [getchar, h]

@[simp] theorem getchar_fst_aborted (s : Machine) : (getchar s).1.aborted = s.aborted := by
  cases h : s.input <;> simp [getchar, h]

@[simp] theorem mem_read_fst_reg (s : Machine) (a : Nat) : (mem_read s a).1.reg = s.reg := by
  by_cases h : a % 65536 = MR_KBSR <;> by_cases hk : check_key s <;> simp [mem_read, h, hk]

@[simp] theorem mem_read_fst_output (s : Machine) (a : Nat) :
    (mem_read s a).1.output = s.output := by
  by_cases h : a % 65536 = MR_KBSR <;> by_cases hk : check_key s <;> simp [mem_read, h, hk]

@[simp] theorem mem_read_fst_running (s : Machine) (a : Nat) :
    (mem_read s a).1.running = s.running := by
  by_cases h : a % 65536 = MR_KBSR <;> by_cases hk : check_key s <;> simp [mem_read, h, hk]

@[simp] theorem mem_read_fst_aborted (s : Machine) (a : Nat) :
    (mem_read s a).1.aborted = s.aborted := by
  by_cases h : a % 65536 = MR_KBSR <;> by_cases hk : check_key s <;> simp [mem_read, h, hk]

theorem mem_read_fst_of_ne (s : Machine) (a : Nat) (h : a % 65536 ≠ MR_KBSR) :
    (mem_read s a).1 = s := by
  unfold mem_read
  simp [h]

theorem mem_read_snd_of_ne (s : Machine) (a : Nat) (h : a % 65536 ≠ MR_KBSR) :
    (mem_read s a).2 = s.mem (a % 65536) := by
  unfold mem_read
  simp [h]

@[simp] theorem update_flags_reg (s : Machine) (r i : Nat) :
    (update_flags s r).reg i = if i = R_COND then
      (if s.reg r = 0 then FL_ZRO else if s.reg r >>> 15 ≠ 0 then FL_NEG else FL_POS)
    else s.reg i := by
  unfold update_flags
  split_ifs with h1 h2 h3 <;> simp_all <;> decide

@[simp] theorem update_flags_mem (s : Machine) (r : Nat) : (update_flags s r).mem = s.mem := by
  unfold update_flags
  split_ifs <;> rfl

@[simp] theorem update_flags_input (s : Machine) (r : Nat) :
    (update_flags s r).input = s.input := by
  unfold update_flags
  split_ifs <;> rfl

@[simp] theorem update_flags_output (s : Machine) (r : Nat) :
    (update_flags s r).output = s.output := by
  unfold update_flags
  split_ifs <;> rfl

@[simp] theorem update_flags_running (s : Machine) (r : Nat) :
    (update_flags s r).running = s.running := by
  unfold update_flags
  split_ifs <;> rfl

@[simp] theorem update_flags_aborted (s : Machine) (r : Nat) :
    (update_flags s r).aborted = s.aborted := by
  unfold update_flags
  split_ifs <;> rfl

theorem update_flags_cond_one_hot (s : Machine) (r : Nat) :
    (update_flags s r).reg R_COND = FL_POS ∨ (update_flags s r).reg R_COND = FL_ZRO ∨
      (update_flags s r).reg R_COND = FL_NEG := by
  simp only [update_flags_reg, if_pos rfl]
  split_ifs <;> simp

@[simp] theorem fetch_state_reg_cond (s : Machine) :
    (fetch_state s).reg R_COND = s.reg R_COND := by
  simp [fetch_state]

@[simp] theorem fetch_state_reg_pc (s : Machine) :
    (fetch_state s).reg R_PC = (s.reg R_PC + 1) % 65536 := by
  simp [fetch_state]

/-- The nonzero test `(x >> m) & 1` used by `sign_extend` and
`update_flags` is exactly `Nat.testBit`. -/
theorem shiftRight_and_one_ne_zero_iff (x m : Nat) :
    ((x >>> m) &&& 1 ≠ 0) ↔ x.testBit m = true := by
  simp only [Nat.and_one_is_mod, Nat.shiftRight_eq_div_pow, Nat.testBit_to_div_mod,
    decide_eq_true_eq]
  omega

/-- C7 (confirmed): for every 16-bit value `x` with `x < 2^n` and every
width `1 ≤ n ≤ 16`, `sign_extend x n` equals `x` on the low `n` bits and
every bit from position `n` up to 15 equals bit `n-1` of `x`; moreover
`sign_extend 0x1F 5 = 0xFFFF` and `sign_extend 0x0F 5 = 0x000F`. -/
theorem C7_sign_extend_bits :
    (∀ x n : Nat, 1 ≤ n → n ≤ 16 → x < 2 ^ n →
      sign_extend x n < 65536 ∧
      (∀ i, i < n → (sign_extend x n).testBit i = x.testBit i) ∧
      (∀ i, n ≤ i → i < 16 → (sign_extend x n).testBit i = x.testBit (n - 1))) ∧
    sign_extend 0x1F 5 = 0xFFFF ∧ sign_extend 0x0F 5 = 0x000F := by
  refine ⟨?_, by decide, by decide⟩
  intro x n h1 h16 hx
  have hffff : (0xFFFF : Nat) = 2 ^ 16 - 1 := by norm_num
  have h65536 : (65536 : Nat) = 2 ^ 16 := by norm_num
  unfold sign_extend
  split_ifs with hb
  · have ht : x.testBit (n - 1) = true := (shiftRight_and_one_ne_zero_iff x (n - 1)).mp hb
    refine ⟨Nat.mod_lt _ (by norm_num), ?_, ?_⟩
    · intro i hi
      have hi16 : i < 16 := lt_of_lt_of_le hi h16
      have hni : ¬ n ≤ i := by omega
      rw [h65536, Nat.testBit_mod_two_pow, Nat.testBit_or, Nat.testBit_shiftLeft]
      simp [hi16, hni]
    · intro i hni hi16
      rw [h65536, Nat.testBit_mod_two_pow, Nat.testBit_or, Nat.testBit_shiftLeft, hffff,
        Nat.testBit_two_pow_sub_one, ht]
      simp only [decide_eq_true_eq, Bool.and_eq_true, Bool.or_eq_true, decide_eq_true_iff]
      simp [hi16, hni]
      omega
  · have hf : x.testBit (n - 1) = false := by
      have := (shiftRight_and_one_ne_zero_iff x (n - 1)).not.mp hb
      simpa using this
    refine ⟨?_, fun i _ => rfl, ?_⟩
    · calc x < 2 ^ n := hx
        _ ≤ 2 ^ 16 := Nat.pow_le_pow_right (by norm_num) h16
        _ = 65536 := by norm_num
    · intro i hni _
      rw [hf]
      exact Nat.testBit_lt_two_pow
        (lt_of_lt_of_le hx (Nat.pow_le_pow_right (by norm_num) hni))

/-- Witness for C7: the theorem applied at `x = 0x1F`, `n = 5`. -/
theorem C7_sign_extend_bits_witness :
    (1 ≤ 5 ∧ 5 ≤ 16 ∧ (0x1F : Nat) < 2 ^ 5) ∧
    (sign_extend 0x1F 5).testBit 10 = Nat.testBit 0x1F 4 :=
  ⟨⟨by decide, by decide, by decide⟩,
   (C7_sign_extend_bits.1 0x1F 5 (by decide) (by decide) (by decide)).2.2 10
     (by decide) (by decide)⟩

/-- C4 (confirmed): `mem_read` behaves as specified - reading `KBSR`
polls the keyboard, setting `memory[KBSR] = 0x8000` and latching the
read character into `memory[KBDR]` when input is pending and clearing
`memory[KBSR]` otherwise, then returning the stored word at the address;
reading any other address returns `memory[addr]` and changes nothing. -/
theorem C4_mem_read_spec (s : Machine) (addr : Nat) (haddr : addr < 65536) :
    ((mem_read s addr).2 = (mem_read s addr).1.mem addr) ∧
    (addr = MR_KBSR →
      (s.input ≠ [] →
        (mem_read s addr).1.mem MR_KBSR = 0x8000 ∧
        (mem_read s addr).1.mem MR_KBDR = s.input.headD 0 % 256 ∧
        (∀ a, a ≠ MR_KBSR → a ≠ MR_KBDR → (mem_read s addr).1.mem a = s.mem a) ∧
        (mem_read s addr).1.input = s.input.tail ∧
        (mem_read s addr).2 = 0x8000) ∧
      (s.input = [] →
        (mem_read s addr).1.mem MR_KBSR = 0 ∧
        (∀ a, a ≠ MR_KBSR → (mem_read s addr).1.mem a = s.mem a) ∧
        (mem_read s addr).1.input = s.input ∧
        (mem_read s addr).2 = 0)) ∧
    (addr ≠ MR_KBSR →
      (mem_read s addr).1 = s ∧ (mem_read s addr).2 = s.mem addr) := by
  have hmod : addr % 65536 = addr := Nat.mod_eq_of_lt haddr
  refine ⟨?_, ?_, ?_⟩
  · by_cases hk : addr = MR_KBSR
    · subst hk
      cases hin : s.input with
      | nil => simp [mem_read, check_key, hin, mem_write, MR_KBSR, MR_KBDR]
      | cons c rest => simp [mem_read, check_key, hin, mem_write, getchar, MR_KBSR, MR_KBDR]
    · simp [mem_read, hmod, hk]
  · intro hk
    subst hk
    constructor
    · intro hin
      obtain ⟨c, rest, hcr⟩ : ∃ c rest, s.input = c :: rest := by
        cases h : s.input with
        | nil => exact absurd h hin
        | cons c rest => exact ⟨c, rest, rfl⟩
      refine ⟨?_, ?_, ?_, ?_, ?_⟩
      · simp [mem_read, check_key, hcr, mem_write, getchar, MR_KBSR, MR_KBDR]
      · simp [mem_read, check_key, hcr, mem_write, getchar, MR_KBSR, MR_KBDR]
        omega
      · intro a h1 h2
        simp [mem_read, check_key, hcr, mem_write, getchar, MR_KBSR, MR_KBDR, h1, h2]
      · simp [mem_read, check_key, hcr, mem_write, getchar, MR_KBSR, MR_KBDR]
      · simp [mem_read, check_key, hcr, mem_write, getchar, MR_KBSR, MR_KBDR]
    · intro hin
      refine ⟨?_, ?_, ?_, ?_⟩
      · simp [mem_read, check_key, hin, mem_write, MR_KBSR, MR_KBDR]
      · intro a h1
        simp [mem_read, check_key, hin, mem_write, MR_KBSR, MR_KBDR, h1]
      · simp [mem_read, check_key, hin, mem_write, MR_KBSR, MR_KBDR]
      · simp [mem_read, check_key, hin, mem_write, MR_KBSR, MR_KBDR]
  · intro hk
    constructor <;> simp [mem_read, hmod, hk]

/-- Witness for C4: the theorem applied at `addr = KBSR` of a machine
with the byte `65` pending, and at an ordinary address. -/
theorem C4_mem_read_spec_witness :
    ((0xFE00 : Nat) < 65536 ∧
      (mem_read (init_machine (fun _ => 0) [65]) 0xFE00).1.mem MR_KBSR = 0x8000 ∧
      (mem_read (init_machine (fun _ => 0) [65]) 0xFE00).1.mem MR_KBDR = 65) ∧
    ((0x3000 : Nat) < 65536 ∧
      (mem_read (init_machine (fun _ => 0) [65]) 0x3000).1 = init_machine (fun _ => 0) [65]) := by
  refine ⟨⟨by decide, ?_, ?_⟩, ⟨by decide, ?_⟩⟩
  · exact (((C4_mem_read_spec (init_machine (fun _ => 0) [65]) 0xFE00 (by decide)).2.1
      rfl).1 (by decide)).1
  · exact (((C4_mem_read_spec (init_machine (fun _ => 0) [65]) 0xFE00 (by decide)).2.1
      rfl).1 (by decide)).2.1
  · exact ((C4_mem_read_spec (init_machine (fun _ => 0) [65]) 0x3000 (by decide)).2.2
      (by decide)).1

/-- C6 counterexample: the claim promises that an image with origin 0 may
load up to `65536 - 0 = 65536` words, but `uint16_t max_read =
MEMORY_MAX - origin` truncates `65536` to `0`: loading a one-word file
at origin 0 leaves memory address 0 unchanged (the word `0x1234`, which
would be stored as `swap16 0x1234 = 0x3412`, is never written). -/
theorem C6_loader_origin0_counterexample :
    read_image_file (fun _ => 0) 0 [0x1234] 0 = 0 ∧
    swap16 0x1234 = 0x3412 ∧ (0x3412 : Nat) ≠ 0 :=
  ⟨by decide, by decide, by decide⟩

/-- C6 (corrected): the loader writes exactly
`min |data| ((65536 - origin) % 2^16)` words at `origin` (byte-swapping
each) and leaves every other address unchanged; the bound is
`65536 - origin` for every origin `1 ≤ origin ≤ 65535` (files longer
than that are truncated silently), but it is `0` - not `65536` - for
origin 0 because of the `uint16_t` truncation of `max_read`. -/
theorem C6_read_image_file_bound (mem : Nat → Nat) (origin : Nat) (data : List Nat) :
    (∀ i, i < min data.length ((65536 - origin) % 65536) →
      read_image_file mem origin data (origin + i) = swap16 (data.getD i 0)) ∧
    (∀ a, a < origin ∨ origin + min data.length ((65536 - origin) % 65536) ≤ a →
      read_image_file mem origin data a = mem a) ∧
    (1 ≤ origin → origin ≤ 65535 → (65536 - origin) % 65536 = 65536 - origin) ∧
    (origin = 0 → (65536 - origin) % 65536 = 0) := by
  refine ⟨?_, ?_, by omega, by omega⟩
  · intro i hi
    have h1 : origin ≤ origin + i := Nat.le_add_right _ _
    have h2 : origin + i < origin + min data.length ((65536 - origin) % 65536) := by omega
    simp only [read_image_file, if_pos (And.intro h1 h2), Nat.add_sub_cancel_left]
  · intro a ha
    have hcond : ¬ (origin ≤ a ∧ a < origin + min data.length ((65536 - origin) % 65536)) := by
      omega
    simp only [read_image_file, if_neg hcond]

/-- Witness for C6's corrected theorem: a two-word image at origin
`0x3000` lands byte-swapped at `0x3000` and leaves `0x2FFF` alone. -/
theorem C6_read_image_file_bound_witness :
    ((0 : Nat) < min ([0x1234, 0x5678] : List Nat).length ((65536 - 0x3000) % 65536) ∧
      read_image_file (fun _ => 9) 0x3000 [0x1234, 0x5678] (0x3000 + 0) = 0x3412) ∧
    read_image_file (fun _ => 9) 0x3000 [0x1234, 0x5678] 0x2FFF = 9 :=
  ⟨⟨by decide,
    (C6_read_image_file_bound (fun _ => 9) 0x3000 [0x1234, 0x5678]).1 0 (by decide)⟩,
   (C6_read_image_file_bound (fun _ => 9) 0x3000 [0x1234, 0x5678]).2.1 0x2FFF
     (Or.inl (by decide))⟩

/-- C1 (code_bug): in `lc3.c` the JMP handler sets the PC to the
contents of the base register for every machine state and every opcode-12
instruction (RET included); but the `main.c` variant executes
`reg[R_PC] = base_reg;`, so on the RET instruction `0xC1C0` with
`reg[7] = 0x1234` it sets PC to the 3-bit index 7 instead of `0x1234`. -/
theorem C1_jmp_pc_contents :
    (∀ (s : Machine) (instr : Nat), instr >>> 12 = 12 →
      s.reg ((instr >>> 6) &&& 0x7) < 65536 →
      (exec_instr s instr).reg R_PC = s.reg ((instr >>> 6) &&& 0x7)) ∧
    ((exec_jmp_main (setReg (init_machine (fun _ => 0) []) 7 0x1234) 0xC1C0).reg R_PC = 7 ∧
      (setReg (init_machine (fun _ => 0) []) 7 0x1234).reg 7 = 0x1234 ∧
      (7 : Nat) ≠ 0x1234) := by
  refine ⟨?_, by decide, by decide, by decide⟩
  intro s instr hop hwf
  simp [exec_instr, hop, Nat.mod_eq_of_lt hwf]

/-- Witness for C1: the lc3.c conjunct applied to `JMP R0` on a machine
whose `R0` holds `0x4242`. -/
theorem C1_jmp_pc_contents_witness :
    ((0xC000 : Nat) >>> 12 = 12 ∧
      (setReg (init_machine (fun _ => 0) []) 0 0x4242).reg ((0xC000 >>> 6) &&& 0x7) < 65536) ∧
    (exec_instr (setReg (init_machine (fun _ => 0) []) 0 0x4242) 0xC000).reg R_PC = 0x4242 :=
  ⟨⟨by decide, by decide⟩,
   C1_jmp_pc_contents.1 (setReg (init_machine (fun _ => 0) []) 0 0x4242) 0xC000
     (by decide) (by decide)⟩

/-- The concrete JSR-and-return program of the spec: `0x3000` holds
`0x4802` (JSR #2) and `0x3003` holds `0xC1C0` (RET, i.e. JMP R7). -/
def c8_state : Machine :=
  init_machine (fun a => if a = 0x3000 then 0x4802 else if a = 0x3003 then 0xC1C0 else 0) []

/-- C8 (confirmed): JSR stores the already post-incremented PC into R7
(in both offset and register mode), and on the spec's concrete program a
JSR #2 fetched at `0x3000` leaves `R7 = 0x3001` and `PC = 0x3003`, after
which the RET at `0x3003` sets `PC = 0x3001`. -/
theorem C8_jsr_link_register :
    (∀ s : Machine, fetched_instr s >>> 12 = 4 →
      (step s).reg R_R7 = (s.reg R_PC + 1) % 65536) ∧
    (step c8_state).reg R_R7 = 0x3001 ∧
    (step c8_state).reg R_PC = 0x3003 ∧
    (step (step c8_state)).reg R_PC = 0x3001 := by
  refine ⟨?_, by decide, by decide, by decide⟩
  intro s hop
  simp only [step, exec_instr, hop]
  norm_num
  split_ifs <;> simp [fetch_state]

/-- Witness for C8: the universally quantified conjunct applied to the
concrete JSR program. -/
theorem C8_jsr_link_register_witness :
    fetched_instr c8_state >>> 12 = 4 ∧
    (step c8_state).reg R_R7 = (c8_state.reg R_PC + 1) % 65536 :=
  ⟨by decide, C8_jsr_link_register.1 c8_state (by decide)⟩

/-- A BR instruction with offset -1 semantics placed at the top of
memory: `0x0E05` (BR nzp #5) stored at `0xFFFF`, with COND = Z. -/
def c3_state : Machine :=
  setReg (init_machine (fun a => if a = 0xFFFF then 0x0E05 else 0) []) R_PC 0xFFFF

/-- C3 (confirmed): one step of the loop is exactly "fetch at PC, then
post-increment PC modulo `2^16`, then run the opcode handler on the
incremented state"; the increment also happens for taken branches (whose
offset is added to the incremented PC), and a fetch at `PC = 0xFFFF`
leaves the next fetch address at `0x0000`. -/
theorem C3_pc_post_increment (s : Machine) :
    step s = exec_instr (fetch_state s) (fetched_instr s) ∧
    (fetch_state s).reg R_PC = (s.reg R_PC + 1) % 65536 ∧
    (s.reg R_PC = 0xFFFF → (fetch_state s).reg R_PC = 0) ∧
    (fetched_instr s >>> 12 = 0 →
      ((fetched_instr s >>> 9) &&& 0x7) &&& s.reg R_COND ≠ 0 →
      (step s).reg R_PC =
        ((s.reg R_PC + 1) % 65536 + sign_extend (fetched_instr s &&& 0x1FF) 9) % 65536) := by
  refine ⟨rfl, fetch_state_reg_pc s, fun h => by rw [fetch_state_reg_pc, h], ?_⟩
  intro hop htaken
  have hcond : ((fetched_instr s >>> 9) &&& 0x7) &&& (fetch_state s).reg R_COND ≠ 0 := by
    rw [fetch_state_reg_cond]; exact htaken
  simp only [step, exec_instr, hop]
  norm_num
  rw [if_neg htaken]
  simp

/-- Witness for C3: on `c3_state` (PC = `0xFFFF`, a taken BR there) the
incremented PC wraps to 0 and the branch lands at `0 + 5`. -/
theorem C3_pc_post_increment_witness :
    (c3_state.reg R_PC = 0xFFFF ∧ (fetch_state c3_state).reg R_PC = 0) ∧
    (step c3_state).reg R_PC =
      ((c3_state.reg R_PC + 1) % 65536 + sign_extend (fetched_instr c3_state &&& 0x1FF) 9) %
        65536 :=
  ⟨⟨by decide, (C3_pc_post_increment c3_state).2.2.1 (by decide)⟩,
   (C3_pc_post_increment c3_state).2.2.2 (by decide) (by decide)⟩

/-- A PUTS whose string spans the KBSR address: the TRAP PUTS at
`0x3000`, R0 pointing at `0xFDFF`, the string `0x41, 0x42` with the
`0x42` word stored at `MR_KBSR = 0xFE00`, and one pending input byte. -/
def c5_state : Machine :=
  setReg (init_machine
    (fun a => if a = 0x3000 then 0xF022 else if a = 0xFDFF then 0x41
              else if a = 0xFE00 then 0x42 else 0) [0x43]) 0 0xFDFF

/-- C5 counterexample: the PUTS of `lc3.c` reads the string words
directly from the `memory` array, not through `mem_read`: on `c5_state`
the executed PUTS leaves `memory[KBSR] = 0x42` and the pending input
untouched, while the spec's reference handler (one `mem_read` per word)
polls the keyboard there and stores `0x8000` into `memory[KBSR]`. -/
theorem C5_puts_mem_read_counterexample :
    (step c5_state).mem MR_KBSR = 0x42 ∧
    (step c5_state).input = [0x43] ∧
    (puts_via_mem_read (fetch_state c5_state)
        (MEMORY_MAX - (fetch_state c5_state).reg 0) ((fetch_state c5_state).reg 0)).mem
      MR_KBSR = 0x8000 ∧
    (0x42 : Nat) ≠ 0x8000 :=
  ⟨by decide, by decide, by decide, by decide⟩

/-- C5 (corrected): PUTS and PUTSP read every string word directly from
the memory array, bypassing `mem_read`; executing either trap never
triggers the keyboard poll - beyond the fetch itself it changes neither
memory nor the pending input. -/
theorem C5_puts_direct_memory (s : Machine)
    (hop : fetched_instr s >>> 12 = 15)
    (hvect : fetched_instr s &&& 0xFF = 0x22 ∨ fetched_instr s &&& 0xFF = 0x24) :
    (∀ a, (step s).mem a = (fetch_state s).mem a) ∧
    (step s).input = (fetch_state s).input := by
  rcases hvect with h | h <;>
    simp [step, exec_instr, hop, h]

/-- Witness for C5's corrected theorem: applied to the concrete
KBSR-spanning PUTS program. -/
theorem C5_puts_direct_memory_witness :
    (step c5_state).mem MR_KBSR = (fetch_state c5_state).mem MR_KBSR ∧
    (step c5_state).input = (fetch_state c5_state).input :=
  ⟨(C5_puts_direct_memory c5_state (by decide) (Or.inl (by decide))).1 MR_KBSR,
   (C5_puts_direct_memory c5_state (by decide) (Or.inl (by decide))).2⟩

/-- C9 (confirmed): executing BR, ST, JSR, STR, STI or JMP leaves the
COND register unchanged, and so does every TRAP except GETC and IN. -/
theorem C9_cond_frame (s : Machine) :
    ((fetched_instr s >>> 12 = 0 ∨ fetched_instr s >>> 12 = 3 ∨ fetched_instr s >>> 12 = 4 ∨
      fetched_instr s >>> 12 = 7 ∨ fetched_instr s >>> 12 = 11 ∨ fetched_instr s >>> 12 = 12) →
      (step s).reg R_COND = s.reg R_COND) ∧
    (fetched_instr s >>> 12 = 15 →
      fetched_instr s &&& 0xFF ≠ 0x20 → fetched_instr s &&& 0xFF ≠ 0x23 →
      (step s).reg R_COND = s.reg R_COND) := by
  constructor
  · intro hop
    rcases hop with h | h | h | h | h | h <;>
      · simp only [step, exec_instr, h]
        norm_num
        all_goals try split_ifs
        all_goals simp_all
  · intro hop h20 h23
    simp only [step, exec_instr, hop]
    norm_num
    all_goals try split_ifs
    all_goals simp_all

/-- Witness for C9: a JMP and an unknown trap both leave COND = Z. -/
theorem C9_cond_frame_witness :
    (step (init_machine (fun _ => 0xC1C0) [])).reg R_COND =
      (init_machine (fun _ => 0xC1C0) []).reg R_COND ∧
    (step (init_machine (fun _ => 0xF0FF) [])).reg R_COND =
      (init_machine (fun _ => 0xF0FF) []).reg R_COND :=
  ⟨(C9_cond_frame (init_machine (fun _ => 0xC1C0) [])).1
      (Or.inr (Or.inr (Or.inr (Or.inr (Or.inr (by decide)))))),
   (C9_cond_frame (init_machine (fun _ => 0xF0FF) [])).2 (by decide) (by decide) (by decide)⟩

/-- C10 (confirmed): a TRAP whose vector is none of 0x20-0x25 stores the
post-incremented PC into R7 and otherwise changes nothing - no other
register, COND, memory or input beyond the fetch itself, no output, no
halt, no abort - and the loop keeps running. -/
theorem C10_unknown_trap_noop (s : Machine)
    (hop : fetched_instr s >>> 12 = 15)
    (h20 : fetched_instr s &&& 0xFF ≠ 0x20) (h21 : fetched_instr s &&& 0xFF ≠ 0x21)
    (h22 : fetched_instr s &&& 0xFF ≠ 0x22) (h23 : fetched_instr s &&& 0xFF ≠ 0x23)
    (h24 : fetched_instr s &&& 0xFF ≠ 0x24) (h25 : fetched_instr s &&& 0xFF ≠ 0x25) :
    (step s).reg R_PC = (s.reg R_PC + 1) % 65536 ∧
    (step s).reg R_R7 = (s.reg R_PC + 1) % 65536 ∧
    (∀ r, r ≠ R_R7 → r ≠ R_PC → (step s).reg r = s.reg r) ∧
    (∀ a, (step s).mem a = (fetch_state s).mem a) ∧
    (step s).input = (fetch_state s).input ∧
    (step s).output = s.output ∧
    (step s).running = s.running ∧
    (step s).aborted = s.aborted := by
  have hstep : step s = setReg (fetch_state s) R_R7 ((fetch_state s).reg R_PC) := by
    simp only [step, exec_instr, hop]
    norm_num
    rw [if_neg h20, if_neg h21, if_neg h22, if_neg h23, if_neg h24, if_neg h25]
  refine ⟨?_, ?_, ?_, ?_, ?_, ?_, ?_, ?_⟩ <;>
    simp [hstep, fetch_state, Nat.mod_mod_of_dvd]
  intro r h7 h8
  simp [h7, h8]

/-- Witness for C10: the unknown trap `0xF0AB` at the initial PC. -/
theorem C10_unknown_trap_noop_witness :
    (step (init_machine (fun _ => 0xF0AB) [])).reg R_PC = 0x3001 ∧
    (step (init_machine (fun _ => 0xF0AB) [])).reg R_R7 = 0x3001 ∧
    (step (init_machine (fun _ => 0xF0AB) [])).running = true := by
  have h := C10_unknown_trap_noop (init_machine (fun _ => 0xF0AB) [])
    (by decide) (by decide) (by decide) (by decide) (by decide) (by decide) (by decide)
  exact ⟨h.1, h.2.1, h.2.2.2.2.2.2.1⟩

/-- For 16-bit values the sign test `v >> 15` of `update_flags` is the
test of bit 15. -/
theorem shiftRight15_ne_zero_iff (v : Nat) (h : v < 65536) :
    (v >>> 15 ≠ 0) ↔ v.testBit 15 = true := by
  rw [← shiftRight_and_one_ne_zero_iff, Nat.and_one_is_mod, Nat.shiftRight_eq_div_pow]
  have h2 : (2 : Nat) ^ 15 = 32768 := by norm_num
  rw [h2]
  omega

/-- `update_flags` chooses the flag from the value of register `r`:
Z on zero, N when bit 15 is set, P otherwise. -/
theorem update_flags_cond_chosen (t : Machine) (r : Nat) (h : t.reg r < 65536) :
    (update_flags t r).reg R_COND =
      if t.reg r = 0 then FL_ZRO
      else if (t.reg r).testBit 15 then FL_NEG else FL_POS := by
  rw [update_flags_reg, if_pos rfl]
  by_cases h0 : t.reg r = 0
  · simp [h0]
  · simp only [if_neg h0]
    by_cases hb : (t.reg r).testBit 15
    · rw [if_pos ((shiftRight15_ne_zero_iff _ h).mpr hb), if_pos hb]
    · rw [if_neg (fun hc => hb ((shiftRight15_ne_zero_iff _ h).mp hc)), if_neg hb]

/-- The flag produced by storing `v` into `dr` and calling `update_flags`
is chosen by the (truncated) stored destination value. -/
theorem update_flags_setReg_chosen (t : Machine) (dr v : Nat) (hdr : dr ≠ R_COND) :
    (update_flags (setReg t dr v) dr).reg R_COND =
      if (update_flags (setReg t dr v) dr).reg dr = 0 then FL_ZRO
      else if ((update_flags (setReg t dr v) dr).reg dr).testBit 15 then FL_NEG
      else FL_POS := by
  have hlt : (setReg t dr v).reg dr < 65536 := by
    simp only [setReg_reg, if_pos rfl]
    exact Nat.mod_lt _ (by norm_num)
  have hfix : (update_flags (setReg t dr v) dr).reg dr = (setReg t dr v).reg dr := by
    rw [update_flags_reg, if_neg hdr]
  rw [hfix]
  exact update_flags_cond_chosen _ _ hlt

/-- The normalised flag expression of `update_flags` (sign tested with
`>> 15`) agrees with the bit-15 formulation for 16-bit values. -/
theorem flag_if_eq (v : Nat) (h : v < 65536) :
    (if v = 0 then FL_ZRO else if v >>> 15 = 0 then FL_POS else FL_NEG) =
      if v = 0 then FL_ZRO else if v.testBit 15 then FL_NEG else FL_POS := by
  by_cases h0 : v = 0
  · simp [h0]
  · simp only [if_neg h0]
    by_cases hb : v.testBit 15 = true
    · have hnz : v >>> 15 ≠ 0 := (shiftRight15_ne_zero_iff v h).mpr hb
      rw [if_neg hnz, if_pos hb]
    · have hz : v >>> 15 = 0 := by
        by_contra hc
        exact hb ((shiftRight15_ne_zero_iff v h).mp hc)
      rw [if_pos hz, if_neg hb]

/-- Every opcode handler either leaves COND alone or stores one of the
three one-hot flag values. -/
theorem exec_instr_cond_cases (s : Machine) (instr : Nat) :
    (exec_instr s instr).reg R_COND = s.reg R_COND ∨
      ((exec_instr s instr).reg R_COND = FL_POS ∨
        (exec_instr s instr).reg R_COND = FL_ZRO ∨
        (exec_instr s instr).reg R_COND = FL_NEG) := by
  by_cases h1 : instr >>> 12 = 1
  · simp only [exec_instr, h1]
    norm_num
    all_goals try split_ifs
    all_goals first
      | exact Or.inr (update_flags_cond_one_hot _ _)
      | exact Or.inl rfl
      | (left; simp; done)
      | (simp; done)
      | tauto
      | (simp_all; done)
  by_cases h5 : instr >>> 12 = 5
  · simp only [exec_instr, h5]
    norm_num
    all_goals try split_ifs
    all_goals first
      | exact Or.inr (update_flags_cond_one_hot _ _)
      | exact Or.inl rfl
      | (left; simp; done)
      | (simp; done)
      | tauto
      | (simp_all; done)
  by_cases h9 : instr >>> 12 = 9
  · simp only [exec_instr, h9]
    norm_num
    all_goals try split_ifs
    all_goals first
      | exact Or.inr (update_flags_cond_one_hot _ _)
      | exact Or.inl rfl
      | (left; simp; done)
      | (simp; done)
      | tauto
      | (simp_all; done)
  by_cases h0 : instr >>> 12 = 0
  · simp only [exec_instr, h0]
    norm_num
    all_goals try split_ifs
    all_goals first
      | exact Or.inr (update_flags_cond_one_hot _ _)
      | exact Or.inl rfl
      | (left; simp; done)
      | (simp; done)
      | tauto
      | (simp_all; done)
  by_cases h12 : instr >>> 12 = 12
  · simp only [exec_instr, h12]
    norm_num
    all_goals try split_ifs
    all_goals first
      | exact Or.inr (update_flags_cond_one_hot _ _)
      | exact Or.inl rfl
      | (left; simp; done)
      | (simp; done)
      | tauto
      | (simp_all; done)
  by_cases h4 : instr >>> 12 = 4
  · simp only [exec_instr, h4]
    norm_num
    all_goals try split_ifs
    all_goals first
      | exact Or.inr (update_flags_cond_one_hot _ _)
      | exact Or.inl rfl
      | (left; simp; done)
      | (simp; done)
      | tauto
      | (simp_all; done)
  by_cases h2 : instr >>> 12 = 2
  · simp only [exec_instr, h2]
    norm_num
    all_goals try split_ifs
    all_goals first
      | exact Or.inr (update_flags_cond_one_hot _ _)
      | exact Or.inl rfl
      | (left; simp; done)
      | (simp; done)
      | tauto
      | (simp_all; done)
  by_cases h10 : instr >>> 12 = 10
  · simp only [exec_instr, h10]
    norm_num
    all_goals try split_ifs
    all_goals first
      | exact Or.inr (update_flags_cond_one_hot _ _)
      | exact Or.inl rfl
      | (left; simp; done)
      | (simp; done)
      | tauto
      | (simp_all; done)
  by_cases h6 : instr >>> 12 = 6
  · simp only [exec_instr, h6]
    norm_num
    all_goals try split_ifs
    all_goals first
      | exact Or.inr (update_flags_cond_one_hot _ _)
      | exact Or.inl rfl
      | (left; simp; done)
      | (simp; done)
      | tauto
      | (simp_all; done)
  by_cases h14 : instr >>> 12 = 14
  · simp only [exec_instr, h14]
    norm_num
    all_goals try split_ifs
    all_goals first
      | exact Or.inr (update_flags_cond_one_hot _ _)
      | exact Or.inl rfl
      | (left; simp; done)
      | (simp; done)
      | tauto
      | (simp_all; done)
  by_cases h3 : instr >>> 12 = 3
  · simp only [exec_instr, h3]
    norm_num
    all_goals try split_ifs
    all_goals first
      | exact Or.inr (update_flags_cond_one_hot _ _)
      | exact Or.inl rfl
      | (left; simp; done)
      | (simp; done)
      | tauto
      | (simp_all; done)
  by_cases h11 : instr >>> 12 = 11
  · simp only [exec_instr, h11]
    norm_num
    all_goals try split_ifs
    all_goals first
      | exact Or.inr (update_flags_cond_one_hot _ _)
      | exact Or.inl rfl
      | (left; simp; done)
      | (simp; done)
      | tauto
      | (simp_all; done)
  by_cases h7 : instr >>> 12 = 7
  · simp only [exec_instr, h7]
    norm_num
    all_goals try split_ifs
    all_goals first
      | exact Or.inr (update_flags_cond_one_hot _ _)
      | exact Or.inl rfl
      | (left; simp; done)
      | (simp; done)
      | tauto
      | (simp_all; done)
  by_cases h15 : instr >>> 12 = 15
  · simp only [exec_instr, h15]
    norm_num
    all_goals try split_ifs
    all_goals first
      | exact Or.inr (update_flags_cond_one_hot _ _)
      | exact Or.inl rfl
      | (left; simp; done)
      | (simp; done)
      | tauto
      | (simp_all; done)
  simp [exec_instr, h1, h5, h9, h0, h12, h4, h2, h10, h6, h14, h3, h11, h7, h15]

/-- One loop iteration either leaves COND alone or stores a one-hot
flag value. -/
theorem step_cond_cases (s : Machine) :
    (step s).reg R_COND = s.reg R_COND ∨
      ((step s).reg R_COND = FL_POS ∨ (step s).reg R_COND = FL_ZRO ∨
        (step s).reg R_COND = FL_NEG) := by
  have h := exec_instr_cond_cases (fetch_state s) (fetched_instr s)
  rw [fetch_state_reg_cond] at h
  exact h

/-- The one-hot property is an invariant of the main loop. -/
theorem stepN_cond_one_hot (n : Nat) :
    ∀ s : Machine,
      (s.reg R_COND = FL_POS ∨ s.reg R_COND = FL_ZRO ∨ s.reg R_COND = FL_NEG) →
      ((stepN n s).reg R_COND = FL_POS ∨ (stepN n s).reg R_COND = FL_ZRO ∨
        (stepN n s).reg R_COND = FL_NEG) := by
  induction n with
  | zero => exact fun s h => h
  | succ n ih =>
    intro s h
    simp only [stepN]
    split_ifs with hr
    · apply ih
      rcases step_cond_cases s with hc | hc
      · rw [hc]; exact h
      · exact hc
    · exact h

/-- C2 (confirmed): COND always holds exactly one of P=1, Z=2, N=4 in
every state the loop reaches from a COND = Z start; `update_flags`
chooses the flag by the destination value (Z if zero, N if bit 15 is
set, P otherwise); and after every executed instruction that updates
COND (ADD, AND, NOT, LD, LDI, LDR, LEA and the GETC/IN traps) COND is
the flag chosen by the value just stored in the destination register. -/
theorem C2_cond_one_hot :
    (∀ s0 : Machine, s0.reg R_COND = FL_ZRO → ∀ n : Nat,
      (stepN n s0).reg R_COND = FL_POS ∨ (stepN n s0).reg R_COND = FL_ZRO ∨
        (stepN n s0).reg R_COND = FL_NEG) ∧
    (∀ (s : Machine) (r : Nat), s.reg r < 65536 →
      (update_flags s r).reg R_COND =
        if s.reg r = 0 then FL_ZRO
        else if (s.reg r).testBit 15 then FL_NEG else FL_POS) ∧
    (∀ s : Machine,
      (fetched_instr s >>> 12 = 1 ∨ fetched_instr s >>> 12 = 5 ∨
       fetched_instr s >>> 12 = 9 ∨ fetched_instr s >>> 12 = 2 ∨
       fetched_instr s >>> 12 = 10 ∨ fetched_instr s >>> 12 = 6 ∨
       fetched_instr s >>> 12 = 14) →
      (step s).reg R_COND =
        if (step s).reg ((fetched_instr s >>> 9) &&& 0x7) = 0 then FL_ZRO
        else if ((step s).reg ((fetched_instr s >>> 9) &&& 0x7)).testBit 15 then FL_NEG
        else FL_POS) ∧
    (∀ s : Machine, fetched_instr s >>> 12 = 15 →
      (fetched_instr s &&& 0xFF = 0x20 ∨ fetched_instr s &&& 0xFF = 0x23) →
      (step s).reg R_COND =
        if (step s).reg 0 = 0 then FL_ZRO
        else if ((step s).reg 0).testBit 15 then FL_NEG else FL_POS) := by
  refine ⟨?_, ?_, ?_, ?_⟩
  · intro s0 h n
    exact stepN_cond_one_hot n s0 (Or.inr (Or.inl h))
  · intro s r h
    exact update_flags_cond_chosen s r h
  · intro s hop
    have hdr : (fetched_instr s >>> 9) &&& 0x7 ≠ R_COND := by
      intro hc
      have hle := @Nat.and_le_right (fetched_instr s >>> 9) 7
      rw [hc] at hle
      exact absurd hle (by decide)
    rcases hop with h | h | h | h | h | h | h
    · by_cases him : fetched_instr s >>> 5 % 2 = 1 <;>
        · simp [step, exec_instr, h, him, hdr]
          exact flag_if_eq _ (Nat.mod_lt _ (by norm_num))
    · by_cases him : fetched_instr s >>> 5 % 2 = 1 <;>
        · simp [step, exec_instr, h, him, hdr]
          exact flag_if_eq _ (Nat.mod_lt _ (by norm_num))
    all_goals
      · simp [step, exec_instr, h, hdr]
        exact flag_if_eq _ (Nat.mod_lt _ (by norm_num))
  · intro s hop hv
    rcases hv with h | h <;>
      · simp [step, exec_instr, hop, h]
        exact flag_if_eq _ (Nat.mod_lt _ (by norm_num))

/-- Witness for C2: three steps of the all-`0x1261` (ADD R1, R1, #1)
program keep COND one-hot, and the first ADD sets COND by R1's new
value. -/
theorem C2_cond_one_hot_witness :
    ((init_machine (fun _ => 0x1261) []).reg R_COND = FL_ZRO ∧
      ((stepN 3 (init_machine (fun _ => 0x1261) [])).reg R_COND = FL_POS ∨
        (stepN 3 (init_machine (fun _ => 0x1261) [])).reg R_COND = FL_ZRO ∨
        (stepN 3 (init_machine (fun _ => 0x1261) [])).reg R_COND = FL_NEG)) ∧
    (step (init_machine (fun _ => 0x1261) [])).reg R_COND =
      (if (step (init_machine (fun _ => 0x1261) [])).reg
            ((fetched_instr (init_machine (fun _ => 0x1261) []) >>> 9) &&& 0x7) = 0 then FL_ZRO
       else if ((step (init_machine (fun _ => 0x1261) [])).reg
            ((fetched_instr (init_machine (fun _ => 0x1261) []) >>> 9) &&& 0x7)).testBit 15
         then FL_NEG else FL_POS) :=
  ⟨⟨by decide, C2_cond_one_hot.1 (init_machine (fun _ => 0x1261) []) (by decide) 3⟩,
   C2_cond_one_hot.2.2.1 (init_machine (fun _ => 0x1261) []) (Or.inl (by decide))⟩

end LC3
